import Mathlib

/-!
Verification development for `src/print_data.cpp` (repository Stabilizer).

The program is a thin CLI wrapper over the librobotcontrol MPU API:
it parses flags with `getopt(argc, argv, "r:m:ho")`, assembles an
`rc_mpu_config_t` starting from `rc_mpu_default_config()`, optionally runs an
orientation menu on stdin, calls `rc_mpu_initialize_dmp`, registers the
`__print_data` callback and sleeps until SIGINT sets the `running` flag to 0.

Shallow embedding conventions:
* C `double` values are modelled as `ℚ` (the claims considered never depend
  on floating-point rounding).
* `printf` output is modelled as a list of `Out` tokens; a `%6.1f` conversion
  is modelled as an `Out.num` token carrying the exact value passed to
  `printf` (the rendering of the number itself is abstracted).
* The vendor library (`rc_mpu_default_config`, `rc_mpu_initialize_dmp`,
  interrupt dispatch) is external to the repository: the default
  configuration and the initialize result are parameters of `mainRun`.
* `getopt` is modelled after its POSIX specification for the option string
  "r:m:ho" with `opterr = 0`: options are scanned from `argv[1]`, scanning
  stops at the first non-option word or at "--", an option letter followed
  by ':' consumes the rest of its word or, failing that, the next word as
  its argument, a missing argument or an unknown option letter yields '?'.
* The post-initialization part of `main` (lines 204-229: the
  `while(running) rc_usleep(100000);` loop, `rc_mpu_power_off()` and
  `return 0`, together with the SIGINT handler `__signal_handler` that sets
  `running = 0`) is modelled as the labelled transition system `LoopStep`,
  since signal arrival is nondeterministic.
-/

namespace Stabilizer

/-- The `rc_mpu_orientation_t` enum of the vendor header `rc/mpu.h`
(only the constructors, the numeric encodings are irrelevant here). -/
inductive rc_mpu_orientation_t where
  | ORIENTATION_Z_UP
  | ORIENTATION_Z_DOWN
  | ORIENTATION_X_UP
  | ORIENTATION_X_DOWN
  | ORIENTATION_Y_UP
  | ORIENTATION_Y_DOWN
  | ORIENTATION_X_FORWARD
  | ORIENTATION_X_BACK
deriving DecidableEq, Repr

/-- The `rc_mpu_config_t` struct of the vendor header `rc/mpu.h`.  C `int`
and enum fields are `Int`, the C `double` field is `ℚ`. -/
structure rc_mpu_config_t where
  gpio_interrupt_pin_chip : Int
  gpio_interrupt_pin : Int
  i2c_bus : Int
  i2c_addr : Int
  show_warnings : Int
  accel_fsr : Int
  gyro_fsr : Int
  accel_dlpf : Int
  gyro_dlpf : Int
  enable_magnetometer : Int
  dmp_sample_rate : Int
  dmp_fetch_accel_gyro : Int
  dmp_auto_calibrate_gyro : Int
  orient : rc_mpu_orientation_t
  compass_time_constant : ℚ
  dmp_interrupt_sched_policy : Int
  dmp_interrupt_priority : Int
  read_mag_after_callback : Int
  mag_sample_rate_div : Int
  tap_threshold : Int
deriving DecidableEq, Repr

/-- All fields of `rc_mpu_config_t` other than `i2c_bus`,
`gpio_interrupt_pin_chip`, `gpio_interrupt_pin`, `dmp_sample_rate`,
`enable_magnetometer` and `orient` — the fields `main` never assigns. -/
def restFields (c : rc_mpu_config_t) :
    Int × Int × Int × Int × Int × Int × Int × Int × ℚ × Int × Int × Int × Int × Int :=
  (c.i2c_addr, c.show_warnings, c.accel_fsr, c.gyro_fsr, c.accel_dlpf,
   c.gyro_dlpf, c.dmp_fetch_accel_gyro, c.dmp_auto_calibrate_gyro,
   c.compass_time_constant, c.dmp_interrupt_sched_policy,
   c.dmp_interrupt_priority, c.read_mag_after_callback,
   c.mag_sample_rate_div, c.tap_threshold)

/-- One token of `printf` output: either a literal string or a number
formatted with a `%6.1f` conversion (the token carries the exact value
handed to `printf`). -/
inductive Out where
  | str : String → Out
  | num : ℚ → Out
deriving DecidableEq, Repr

/-- The six `printf` lines of `__print_usage` (lines 41-46). -/
def usageOuts : List Out :=
  [Out.str "\n Options\n",
   Out.str "-r {rate}       Set sample rate in HZ (default 100)\n",
   Out.str "                Sample rate must be a divisor of 200\n",
   Out.str "-m              Enable Magnetometer\n",
   Out.str "-o              Show a menu to select IMU orientation\n",
   Out.str "-h              Print this help message\n\n"]

/-- C `isspace` on the characters `atoi` skips. -/
def isSpaceC (c : Char) : Bool :=
  c = ' ' || c = '\t' || c = '\n' || c = Char.ofNat 11 || c = Char.ofNat 12 || c = '\r'

/-- Accumulate the leading decimal digits, as `atoi` does after the sign. -/
def digitsVal : List Char → Int → Int
  | [], acc => acc
  | c :: cs, acc =>
    if c.isDigit then digitsVal cs (acc * 10 + (c.toNat - '0'.toNat : Nat)) else acc

/-- C `atoi` on a character list: skip whitespace, optional sign, leading
digits; 0 when no digits.  (Overflow, undefined in C, is not modelled.) -/
def atoiChars (s : List Char) : Int :=
  match s.dropWhile isSpaceC with
  | '-' :: rest => - digitsVal rest 0
  | '+' :: rest => digitsVal rest 0
  | rest => digitsVal rest 0

/-- The letters of one option word (after its '-'), scanned as
`getopt(argc, argv, "r:m:ho")` does: 'h' and 'o' are options without
argument, an unknown letter yields '?'; 'r' and 'm' require an argument
and take the remaining letters of the word when there are any.  Result:
the `(letter, optarg)` pairs produced within the word, plus `some c` when
the word ended with an option letter `c` still needing an argument (to be
taken from the next word). -/
def charScan : List Char → List (Char × Option (List Char)) × Option Char
  | [] => ([], none)
  | c :: cs =>
    if c = 'r' ∨ c = 'm' then
      match cs with
      | [] => ([], some c)
      | c2 :: cs2 => ([(c, some (c2 :: cs2))], none)
    else if c = 'h' ∨ c = 'o' then
      ((c, none) :: (charScan cs).1, (charScan cs).2)
    else
      (('?', none) :: (charScan cs).1, (charScan cs).2)

/-- Classify one `argv` word as `getopt` does: `some cs` when the word is
an option word ('-' followed by at least one letter, and not the scan
terminator "--"), with `cs` its letters; `none` when scanning stops there
(a word with no leading '-', the word "-", or "--"). -/
def wordOpt (t : List Char) : Option (List Char) :=
  match t with
  | '-' :: c :: cs => if '-' :: c :: cs = ['-', '-'] then none else some (c :: cs)
  | _ => none

/-- POSIX `getopt(argc, argv, "r:m:ho")` with `opterr = 0`, as the sequence
of `(returned letter, optarg)` pairs it produces before returning -1, on
the words `argv[1..]`.  Scanning stops at a word that is not an option
(no leading '-', or exactly "-"), or at "--"; an option letter that needs
an argument takes the next word when its own word is exhausted, and
yields '?' when no word is left. -/
def getoptScan : List (List Char) → List (Char × Option (List Char))
  | [] => []
  | t :: rest =>
    match wordOpt t with
    | none => []
    | some cs =>
      match charScan cs with
      | (evs, none) => evs ++ getoptScan rest
      | (evs, some copt) =>
        match rest with
        | [] => evs ++ [('?', none)]
        | a :: rest2 => evs ++ [(copt, some a)] ++ getoptScan rest2

/-- `getoptScan` runs off the end of its input without stopping early:
no non-option word, no "--", no missing required argument.  Used to state
when scanning an extended command line continues past a prefix. -/
def scanConsumesAll : List (List Char) → Bool
  | [] => true
  | t :: rest =>
    match wordOpt t with
    | none => false
    | some cs =>
      match charScan cs with
      | (_, none) => scanConsumesAll rest
      | (_, some _) =>
        match rest with
        | [] => false
        | _ :: rest2 => scanConsumesAll rest2

/-- Result of the option-parsing loop of `main` (lines 162-192) when it
falls through to line 194 without returning. -/
structure ParseOk where
  conf : rc_mpu_config_t
  show_something : Bool
  orientation_menu : Bool
deriving DecidableEq, Repr

/-- The option-parsing `while`/`switch` of `main` (lines 162-192), run on
the `getopt` results.  `none` models an early `return -1`; the `List Out`
is what the loop printed. -/
def parseArgs : rc_mpu_config_t → Bool → Bool → List (Char × Option (List Char)) →
    Option ParseOk × List Out
  | conf, sh, om, [] => (some ⟨conf, sh, om⟩, [])
  | conf, sh, om, (c, a) :: evs =>
    if c = 'r' then
      -- case 'r': sample_rate = atoi(optarg); show_something = 1; range check
      let sample_rate := atoiChars (a.getD [])
      if sample_rate > 200 ∨ sample_rate < 4 then
        (none, [Out.str "sample_rate must be between 4 & 200"])
      else
        parseArgs { conf with dmp_sample_rate := sample_rate } true om evs
    else if c = 'm' then
      parseArgs { conf with enable_magnetometer := 1 } sh om evs
    else if c = 'o' then
      parseArgs conf sh true evs
    else if c = 'h' then
      (none, usageOuts)
    else
      (none, Out.str ("opt: " ++ String.mk [c] ++ "\n") ::
             Out.str "invalid argument\n" :: usageOuts)

/-- The last `-r` argument wins: the value `conf.dmp_sample_rate` holds
after the parse loop, starting from default `d`. -/
def parsedRate (evs : List (Char × Option (List Char))) (d : Int) : Int :=
  evs.foldl (fun acc e => if e.1 = 'r' then atoiChars (e.2.getD []) else acc) d

/-- Outcome of `__orientation_prompt`: either an orientation was selected
(with the unread rest of stdin), or 'q' was read and the process exited
with status 0. -/
inductive PromptResult where
  | sel : rc_mpu_orientation_t → List Char → PromptResult
  | exited : PromptResult
deriving DecidableEq, Repr

/-- The `switch` cases '1'..'8' of `__orientation_prompt` (lines 103-126). -/
def orientOf : Char → rc_mpu_orientation_t
  | '1' => .ORIENTATION_Z_UP
  | '2' => .ORIENTATION_Z_DOWN
  | '3' => .ORIENTATION_X_UP
  | '4' => .ORIENTATION_X_DOWN
  | '5' => .ORIENTATION_Y_UP
  | '6' => .ORIENTATION_Y_DOWN
  | '7' => .ORIENTATION_X_FORWARD
  | _ => .ORIENTATION_X_BACK

/-- The `while ((c = getchar()) != EOF)` loop of `__orientation_prompt`
(lines 101-137), on a stdin character stream. -/
def promptLoop : List Char → PromptResult × List Out
  | [] => (.sel .ORIENTATION_Z_UP [], [])
  | c :: rest =>
    if c = '1' ∨ c = '2' ∨ c = '3' ∨ c = '4' ∨ c = '5' ∨ c = '6' ∨ c = '7' ∨ c = '8' then
      (.sel (orientOf c) rest, [])
    else if c = 'q' then
      (.exited, [Out.str "Quitting\n"])
    else if c = '\n' then
      promptLoop rest
    else
      ((promptLoop rest).1, Out.str "invalid input\n" :: (promptLoop rest).2)

/-- The eleven menu `printf` lines of `__orientation_prompt` (lines 90-100). -/
def promptMenuOuts : List Out :=
  [Out.str "\n",
   Out.str "Please select a number 1-6 corresponding to the\n",
   Out.str "orientation you wish to use. Press 'q' to exit.\n\n",
   Out.str " 1: ORIENTATION_Z_UP\n",
   Out.str " 2: ORIENTATION_Z_DOWN\n",
   Out.str " 3: ORIENTATION_X_UP\n",
   Out.str " 4: ORIENTATION_X_DOWN\n",
   Out.str " 5: ORIENTATION_Y_UP\n",
   Out.str " 6: ORIENTATION_Y_DOWN\n",
   Out.str " 7: ORIENTATION_X_FORWARD\n",
   Out.str " 8: ORIENTATION_X_BACK\n"]

/-- The three `printf` lines of `__print_header` (lines 66-71). -/
def headerOuts : List Out :=
  [Out.str " ", Out.str " DMP TaitBryan (deg) |", Out.str "\n"]

/-- Observable events of a run of `main` up to entering the sleep loop. -/
inductive Event where
  | out : Out → Event
  | sigRegistered : Event
  | initCall : rc_mpu_config_t → Event
  | setCallback : Event
  | loopStart : Event
deriving DecidableEq, Repr

/-- How a run of `main` (up to the sleep loop) can end. -/
inductive MainResult where
  | ret : Int → MainResult
  | exitZero : MainResult
  | loopEntered : MainResult
deriving DecidableEq, Repr

/-- Lines 156-159: default config with `i2c_bus = I2C_BUS`,
`gpio_interrupt_pin_chip = GPIO_INT_PIN_CHIP`,
`gpio_interrupt_pin = GPIO_INT_PIN_PIN`. -/
def confBase (dflt : rc_mpu_config_t) : rc_mpu_config_t :=
  { dflt with i2c_bus := 2, gpio_interrupt_pin_chip := 3, gpio_interrupt_pin := 21 }

/-- Lines 199-202: if `-o` was given, run the orientation prompt and store
its selection into `conf.orient`; `(none, outs)` models the `exit(0)` path. -/
def withOrient (p : ParseOk) (stdin : List Char) : Option rc_mpu_config_t × List Out :=
  if p.orientation_menu then
    match promptLoop stdin with
    | (.exited, os) => (none, promptMenuOuts ++ os)
    | (.sel o _, os) => (some { p.conf with orient := o }, promptMenuOuts ++ os)
  else
    (some p.conf, [])

/-- Lines 193-223 of `main`, after the parse loop fell through: the
`show_something` check, the orientation prompt, `signal(SIGINT, ...)`,
`rc_mpu_initialize_dmp`, `__print_header`, `rc_mpu_set_dmp_callback`, and
entry into the sleep loop.  `rc_mpu_initialize_dmp` is external to the
repository, so its return value is the parameter `init`. -/
def afterParse (p : ParseOk) (stdin : List Char)
    (init : rc_mpu_config_t → Int) : MainResult × List Event :=
  if p.show_something = false then
    (.ret (-1),
     (usageOuts ++ [Out.str "please enable an option to print some data\n"]).map Event.out)
  else
    match withOrient p stdin with
    | (none, os) => (.exitZero, os.map Event.out)
    | (some conf1, os) =>
      if init conf1 ≠ 0 then
        (.ret (-1), os.map Event.out ++ [Event.sigRegistered, Event.initCall conf1,
          Event.out (Out.str "rc_mpu_initialize_failed\n")])
      else
        (.loopEntered, os.map Event.out ++ [Event.sigRegistered, Event.initCall conf1] ++
          headerOuts.map Event.out ++ [Event.setCallback, Event.loopStart])

/-- `main` (lines 150-223) up to entering the sleep loop.  `dflt` is the
external `rc_mpu_default_config()`, `argv` the full argument vector
(`argv[0]` is the program name), `stdin` the input stream, `init` the
external `rc_mpu_initialize_dmp` result on a given config. -/
def mainRun (dflt : rc_mpu_config_t) (argv : List String) (stdin : List Char)
    (init : rc_mpu_config_t → Int) : MainResult × List Event :=
  match parseArgs (confBase dflt) false false
      (getoptScan ((argv.drop 1).map String.toList)) with
  | (none, os) => (.ret (-1), os.map Event.out)
  | (some p, os) =>
    ((afterParse p stdin init).1, os.map Event.out ++ (afterParse p stdin init).2)

/-- The `rc_mpu_data_t` struct shared with the vendor library; only the
field `__print_data` reads is modelled.  `dmp_TaitBryan` is the C array
`double dmp_TaitBryan[3]`. -/
structure rc_mpu_data_t where
  dmp_TaitBryan : Fin 3 → ℚ

/-- Index macro `TB_PITCH_X = 0` of `rc/mpu.h`. -/
def TB_PITCH_X : Fin 3 := 0

/-- Index macro `TB_ROLL_Y = 1` of `rc/mpu.h`. -/
def TB_ROLL_Y : Fin 3 := 1

/-- Index macro `TB_YAW_Z = 2` of `rc/mpu.h`. -/
def TB_YAW_Z : Fin 3 := 2

/-- The vendor macro `RAD_TO_DEG` (180/pi), as the fixed conversion
constant; its exact value is irrelevant to the claims. -/
def RAD_TO_DEG : ℚ := 57.29577951308232

/-- The registered IMU interrupt callback `__print_data` (lines 52-61):
`printf("\r"); printf(" "); printf("%6.1f %6.1f %6.1f |", pitch, roll, yaw)`
where each angle is the stored radian value times `RAD_TO_DEG`. -/
def print_data (data : rc_mpu_data_t) : List Out :=
  [Out.str "\r",
   Out.str " ",
   Out.num (data.dmp_TaitBryan TB_PITCH_X * RAD_TO_DEG),
   Out.str " ",
   Out.num (data.dmp_TaitBryan TB_ROLL_Y * RAD_TO_DEG),
   Out.str " ",
   Out.num (data.dmp_TaitBryan TB_YAW_Z * RAD_TO_DEG),
   Out.str " |"]

/-- The numeric value of an output token, if it is one. -/
def numOf : Out → Option ℚ
  | Out.num q => some q
  | Out.str _ => none

/-- The characters of a literal output token (a number token has none). -/
def strCharsOf : Out → List Char
  | Out.num _ => []
  | Out.str s => s.toList

/-- State of `main` after `running = 1` and a successful
`rc_mpu_initialize_dmp` (lines 204-229): whether the `running` flag is
still set, which program point the main thread is at, and the value
`main` has returned (if it has). -/
inductive Phase where
  | looping
  | poweredOff
  | finished
deriving DecidableEq, Repr

/-- State of the sleep-loop phase of `main`. -/
structure LoopState where
  running : Bool
  phase : Phase
  retcode : Option Int
deriving DecidableEq, Repr

/-- Labels of the sleep-loop transitions. -/
inductive LoopLabel where
  | sleepTick
  | sigint
  | exitLoop
  | returnZero
deriving DecidableEq, Repr

/-- Transitions of lines 204-229 plus the SIGINT handler `__signal_handler`
(lines 75-79): while `running` is set the main thread re-checks the loop
condition and sleeps; a SIGINT can arrive at any time and its handler
writes `running = 0`; when the loop condition reads `running == 0` the loop
exits and `rc_mpu_power_off()` runs; then `main` returns 0. -/
inductive LoopStep : LoopState → LoopLabel → LoopState → Prop
  | sleep (s : LoopState) :
      s.phase = Phase.looping → s.running = true → LoopStep s LoopLabel.sleepTick s
  | sigint (s : LoopState) :
      LoopStep s LoopLabel.sigint { s with running := false }
  | exitLoop (s : LoopState) :
      s.phase = Phase.looping → s.running = false →
      LoopStep s LoopLabel.exitLoop { s with phase := Phase.poweredOff }
  | returnZero (s : LoopState) :
      s.phase = Phase.poweredOff →
      LoopStep s LoopLabel.returnZero { s with phase := Phase.finished, retcode := some 0 }

/-- Line 206: the loop phase starts with `running = 1`, inside the loop,
`main` not yet returned. -/
def loopInit : LoopState := ⟨true, Phase.looping, none⟩

/-- States the sleep-loop phase can reach from its start. -/
inductive LoopReachable : LoopState → Prop
  | init : LoopReachable loopInit
  | step {s l s'} : LoopReachable s → LoopStep s l s' → LoopReachable s'

/-- Whether `pat` occurs contiguously at the head of `l`. -/
def seqAt {α : Type} [DecidableEq α] : List α → List α → Bool
  | [], _ => true
  | _ :: _, [] => false
  | p :: ps, x :: xs => decide (p = x) && seqAt ps xs

/-- Whether `pat` occurs contiguously somewhere in `l`. -/
def containsSeq {α : Type} [DecidableEq α] (pat : List α) : List α → Bool
  | [] => pat.isEmpty
  | x :: xs => seqAt pat (x :: xs) || containsSeq pat xs

/-- The usage text, as trace events. -/
def usageEvents : List Event := usageOuts.map Event.out

/-- No `rc_mpu_initialize_dmp` call occurs in the trace. -/
def noInit (tr : List Event) : Bool :=
  tr.all fun e =>
    match e with
    | Event.initCall _ => false
    | _ => true

/-- A `getopt` result the parse loop passes through without returning:
an in-range `-r`, or `-m`, or `-o`. -/
def benignEv (e : Char × Option (List Char)) : Bool :=
  (e.1 = 'r' && 4 ≤ atoiChars (e.2.getD []) && atoiChars (e.2.getD []) ≤ 200)
  || e.1 = 'm' || e.1 = 'o'

/-- The orientation `__orientation_prompt` returns on this stdin
(defaulting to `ORIENTATION_Z_UP` on the `exit(0)` path, which cannot be
taken in a run that goes on to initialize the IMU). -/
def promptSel (stdin : List Char) : rc_mpu_orientation_t :=
  match (promptLoop stdin).1 with
  | PromptResult.sel o _ => o
  | PromptResult.exited => rc_mpu_orientation_t.ORIENTATION_Z_UP

/-- The characters `__orientation_prompt` reacts to by leaving the read
loop: the selections '1'..'8' and the quit key 'q'. -/
def selChars : List Char := ['1', '2', '3', '4', '5', '6', '7', '8', 'q']

/-- The "invalid input" lines the prompt prints while consuming `pre`:
one per character that is neither a selection nor a newline. -/
def invalidOuts (pre : List Char) : List Out :=
  (pre.filter fun x => x != '\n').map fun _ => Out.str "invalid input\n"

/-- What the parse loop prints on an unknown option or a missing option
argument (`getopt` returned '?'): the `default:` case of the switch
followed by the usage text. -/
def errOuts : List Out :=
  Out.str "opt: ?\n" :: Out.str "invalid argument\n" :: usageOuts

/-- A concrete stand-in for the vendor `rc_mpu_default_config()`, used
only to instantiate universally quantified theorems at concrete inputs. -/
def sampleConf : rc_mpu_config_t :=
  ⟨0, 0, 0, 104, 0, 0, 0, 0, 0, 0, 100, 1, 0,
   rc_mpu_orientation_t.ORIENTATION_Z_UP, 20, 0, 0, 0, 0, 0⟩

/-- The configuration `main` assembles for `-r 50 -m x -o` with stdin "3"
on the sample default configuration. -/
def witnessConf : rc_mpu_config_t :=
  { sampleConf with
    i2c_bus := 2
    gpio_interrupt_pin_chip := 3
    gpio_interrupt_pin := 21
    dmp_sample_rate := 50
    enable_magnetometer := 1
    orient := rc_mpu_orientation_t.ORIENTATION_X_UP }

/-- Some `rc_mpu_initialize_dmp` call with a nonzero return occurs in the
trace. -/
def anyInitFail (init : rc_mpu_config_t → Int) (tr : List Event) : Bool :=
  tr.any fun e =>
    match e with
    | Event.initCall c => init c != 0
    | _ => false

/-- C4 as stated: `main` returns a failure code only when
`rc_mpu_initialize_dmp` returned nonzero. -/
def onlyInitFailureReturns (dflt : rc_mpu_config_t) (argv : List String)
    (stdin : List Char) (init : rc_mpu_config_t → Int) : Prop :=
  (mainRun dflt argv stdin init).1 = MainResult.ret (-1) →
    ∃ c, Event.initCall c ∈ (mainRun dflt argv stdin init).2 ∧ init c ≠ 0

/-- C6 as stated: an invocation without a valid `-r` (no `-r` whose parsed
rate is in [4, 200]) prints the usage text and returns -1 without touching
the IMU. -/
def noValidR_usage (dflt : rc_mpu_config_t) (argv : List String)
    (stdin : List Char) (init : rc_mpu_config_t → Int) : Prop :=
  ((getoptScan ((argv.drop 1).map String.toList)).any fun e =>
      e.1 = 'r' && 4 ≤ atoiChars (e.2.getD []) && atoiChars (e.2.getD []) ≤ 200) = false →
    containsSeq usageEvents (mainRun dflt argv stdin init).2 = true ∧
    (mainRun dflt argv stdin init).1 = MainResult.ret (-1) ∧
    noInit (mainRun dflt argv stdin init).2 = true

/-- C7 as stated: whenever `-m` is the final command-line token, option
parsing errors out, the usage text is printed, and `main` returns -1
without initializing the IMU. -/
def mFinalUsage (dflt : rc_mpu_config_t) (argv : List String)
    (stdin : List Char) (init : rc_mpu_config_t → Int) : Prop :=
  argv.getLast? = some "-m" →
    containsSeq usageEvents (mainRun dflt argv stdin init).2 = true ∧
    (mainRun dflt argv stdin init).1 = MainResult.ret (-1) ∧
    noInit (mainRun dflt argv stdin init).2 = true

lemma noInit_map_out (os : List Out) : noInit (os.map Event.out) = true := by
  induction os with
  | nil => rfl
  | cons a os ih => simp [noInit, List.all_cons, ih]

lemma seqAt_self_append {α : Type} [DecidableEq α] (pat suf : List α) :
    seqAt pat (pat ++ suf) = true := by
  induction pat with
  | nil => rfl
  | cons p ps ih => simp [seqAt, ih]

lemma containsSeq_sandwich {α : Type} [DecidableEq α] (pat pre suf : List α) :
    containsSeq pat (pre ++ pat ++ suf) = true := by
  induction pre with
  | nil =>
    cases h : pat ++ suf with
    | nil =>
      rcases List.append_eq_nil.mp h with ⟨h1, h2⟩
      simp [containsSeq, h, h1, h2]
    | cons x xs =>
      have : containsSeq pat (pat ++ suf) = (seqAt pat (pat ++ suf) || containsSeq pat xs) := by
        rw [h]; rfl
      simp only [List.nil_append, this, seqAt_self_append, Bool.true_or]
  | cons a pre ih =>
    simp only [List.cons_append, containsSeq, List.append_eq, ih, Bool.or_true]

lemma parseArgs_spec (evs : List (Char × Option (List Char))) :
    ∀ conf sh om p os, parseArgs conf sh om evs = (some p, os) →
      os = [] ∧
      p.show_something = (sh || evs.any fun e => e.1 = 'r') ∧
      p.orientation_menu = (om || evs.any fun e => e.1 = 'o') ∧
      p.conf.dmp_sample_rate = parsedRate evs conf.dmp_sample_rate ∧
      p.conf.enable_magnetometer =
        (if evs.any (fun e => e.1 = 'm') then 1 else conf.enable_magnetometer) ∧
      p.conf.orient = conf.orient ∧
      p.conf.i2c_bus = conf.i2c_bus ∧
      p.conf.gpio_interrupt_pin_chip = conf.gpio_interrupt_pin_chip ∧
      p.conf.gpio_interrupt_pin = conf.gpio_interrupt_pin ∧
      restFields p.conf = restFields conf := by
  induction evs with
  | nil =>
    intro conf sh om p os h
    simp only [parseArgs, Prod.mk.injEq, Option.some.injEq] at h
    rcases h with ⟨hp, hos⟩
    subst hp
    simp [parsedRate]
    exact hos.symm
  | cons e evs ih =>
    intro conf sh om p os h
    obtain ⟨c, a⟩ := e
    by_cases hr : c = 'r'
    · subst hr
      by_cases hrange : atoiChars (a.getD []) > 200 ∨ atoiChars (a.getD []) < 4
      · simp [parseArgs, hrange] at h
      · simp only [parseArgs, if_pos rfl, if_neg hrange] at h
        rcases ih _ _ _ _ _ h with ⟨h1, h2, h3, h4, h5, h6, h7, h8, h9, h10⟩
        refine ⟨h1, ?_, ?_, ?_, ?_, ?_, ?_, ?_, ?_, ?_⟩
        · simp [h2, List.any_cons]
        · simpa [List.any_cons] using h3
        · simpa [parsedRate, List.foldl_cons] using h4
        · simpa [List.any_cons] using h5
        · exact h6
        · exact h7
        · exact h8
        · exact h9
        · simpa [restFields] using h10
    · by_cases hm : c = 'm'
      · subst hm
        simp only [parseArgs, if_neg (by decide : ¬ ('m' = 'r')), if_pos rfl] at h
        rcases ih _ _ _ _ _ h with ⟨h1, h2, h3, h4, h5, h6, h7, h8, h9, h10⟩
        refine ⟨h1, ?_, ?_, ?_, ?_, ?_, ?_, ?_, ?_, ?_⟩
        · simpa [List.any_cons] using h2
        · simpa [List.any_cons] using h3
        · simpa [parsedRate, List.foldl_cons] using h4
        · have h5' : p.conf.enable_magnetometer = 1 := by
            simpa using h5
          simp [List.any_cons, h5']
        · exact h6
        · exact h7
        · exact h8
        · exact h9
        · simpa [restFields] using h10
      · by_cases ho : c = 'o'
        · subst ho
          simp only [parseArgs, if_neg (by decide : ¬ ('o' = 'r')),
            if_neg (by decide : ¬ ('o' = 'm')), if_pos rfl] at h
          rcases ih _ _ _ _ _ h with ⟨h1, h2, h3, h4, h5, h6, h7, h8, h9, h10⟩
          refine ⟨h1, ?_, ?_, ?_, ?_, h6, h7, h8, h9, h10⟩
          · simpa [List.any_cons] using h2
          · simp [h3, List.any_cons]
          · simpa [parsedRate, List.foldl_cons] using h4
          · simpa [List.any_cons] using h5
        · by_cases hh : c = 'h'
          · subst hh
            simp [parseArgs] at h
          · simp [parseArgs, hr, hm, ho, hh] at h

lemma parse_fail_bad_rate (evs : List (Char × Option (List Char))) :
    ∀ conf sh om,
      (evs.any fun e => e.1 = 'r' &&
        (atoiChars (e.2.getD []) < 4 || 200 < atoiChars (e.2.getD []))) = true →
      (parseArgs conf sh om evs).1 = none := by
  induction evs with
  | nil => intro conf sh om h; simp at h
  | cons e evs ih =>
    intro conf sh om h
    obtain ⟨c, a⟩ := e
    by_cases hr : c = 'r'
    · subst hr
      by_cases hrange : atoiChars (a.getD []) > 200 ∨ atoiChars (a.getD []) < 4
      · simp [parseArgs, hrange]
      · simp only [List.any_cons] at h
        have hb : (evs.any fun e => e.1 = 'r' &&
            (atoiChars (e.2.getD []) < 4 || 200 < atoiChars (e.2.getD []))) = true := by
          rcases (Bool.or_eq_true _ _).mp h with h1 | h1
          · exfalso
            simp only [Bool.and_eq_true, decide_eq_true_eq, Bool.or_eq_true] at h1
            rcases h1.2 with h2 | h2 <;> omega
          · exact h1
        simp only [parseArgs, if_pos rfl, if_neg hrange]
        exact ih _ _ _ hb
    · by_cases hm : c = 'm'
      · subst hm
        simp only [List.any_cons] at h
        have hb : (evs.any fun e => e.1 = 'r' &&
            (atoiChars (e.2.getD []) < 4 || 200 < atoiChars (e.2.getD []))) = true := by
          rcases (Bool.or_eq_true _ _).mp h with h1 | h1
          · exfalso; simp at h1
          · exact h1
        simp only [parseArgs, if_neg (by decide : ¬ ('m' = 'r')), if_pos rfl]
        exact ih _ _ _ hb
      · by_cases ho : c = 'o'
        · subst ho
          simp only [List.any_cons] at h
          have hb : (evs.any fun e => e.1 = 'r' &&
              (atoiChars (e.2.getD []) < 4 || 200 < atoiChars (e.2.getD []))) = true := by
            rcases (Bool.or_eq_true _ _).mp h with h1 | h1
            · exfalso; simp at h1
            · exact h1
          simp only [parseArgs, if_neg (by decide : ¬ ('o' = 'r')),
            if_neg (by decide : ¬ ('o' = 'm')), if_pos rfl]
          exact ih _ _ _ hb
        · by_cases hh : c = 'h'
          · subst hh; simp [parseArgs]
          · simp [parseArgs, hr, hm, ho, hh]

lemma parse_benign_success (evs : List (Char × Option (List Char))) :
    ∀ conf sh om, (∀ e ∈ evs, benignEv e = true) →
      (parseArgs conf sh om evs).1.isSome = true := by
  induction evs with
  | nil => intro conf sh om _; simp [parseArgs]
  | cons e evs ih =>
    intro conf sh om h
    obtain ⟨c, a⟩ := e
    have hhead := h (c, a) (List.mem_cons_self _ _)
    have htail : ∀ e ∈ evs, benignEv e = true := fun e he => h e (List.mem_cons_of_mem _ he)
    simp only [benignEv, Bool.or_eq_true, Bool.and_eq_true, decide_eq_true_eq] at hhead
    rcases hhead with ((⟨⟨hr, h4⟩, h200⟩ | hm) | ho)
    · subst hr
      have hrange : ¬ (atoiChars (a.getD []) > 200 ∨ atoiChars (a.getD []) < 4) := by
        push_neg; omega
      simp only [parseArgs, if_pos rfl, if_neg hrange]
      exact ih _ _ _ htail
    · subst hm
      simp only [parseArgs, if_neg (by decide : ¬ ('m' = 'r')), if_pos rfl]
      exact ih _ _ _ htail
    · subst ho
      simp only [parseArgs, if_neg (by decide : ¬ ('o' = 'r')),
        if_neg (by decide : ¬ ('o' = 'm')), if_pos rfl]
      exact ih _ _ _ htail

lemma parse_benign_err (evs : List (Char × Option (List Char))) :
    ∀ conf sh om, (∀ e ∈ evs, benignEv e = true) →
      parseArgs conf sh om (evs ++ [('?', none)]) = (none, errOuts) := by
  induction evs with
  | nil =>
    intro conf sh om _
    simp [parseArgs, errOuts]
  | cons e evs ih =>
    intro conf sh om h
    obtain ⟨c, a⟩ := e
    have hhead := h (c, a) (List.mem_cons_self _ _)
    have htail : ∀ e ∈ evs, benignEv e = true := fun e he => h e (List.mem_cons_of_mem _ he)
    simp only [benignEv, Bool.or_eq_true, Bool.and_eq_true, decide_eq_true_eq] at hhead
    rcases hhead with ((⟨⟨hr, h4⟩, h200⟩ | hm) | ho)
    · subst hr
      have hrange : ¬ (atoiChars (a.getD []) > 200 ∨ atoiChars (a.getD []) < 4) := by
        push_neg; omega
      simp only [List.cons_append, parseArgs, if_pos rfl, if_neg hrange]
      exact ih _ _ _ htail
    · subst hm
      simp only [List.cons_append, parseArgs, if_neg (by decide : ¬ ('m' = 'r')), if_pos rfl]
      exact ih _ _ _ htail
    · subst ho
      simp only [List.cons_append, parseArgs, if_neg (by decide : ¬ ('o' = 'r')),
        if_neg (by decide : ¬ ('o' = 'm')), if_pos rfl]
      exact ih _ _ _ htail

lemma parse_fail_usage (evs : List (Char × Option (List Char))) :
    ∀ conf sh om os, (∀ e ∈ evs, e.1 ≠ 'r') →
      parseArgs conf sh om evs = (none, os) →
      ∃ pre suf, os = pre ++ usageOuts ++ suf := by
  induction evs with
  | nil => intro conf sh om os _ h; simp [parseArgs] at h
  | cons e evs ih =>
    intro conf sh om os hnr h
    obtain ⟨c, a⟩ := e
    have hr : c ≠ 'r' := hnr (c, a) (List.mem_cons_self _ _)
    have htail : ∀ e ∈ evs, e.1 ≠ 'r' := fun e he => hnr e (List.mem_cons_of_mem _ he)
    by_cases hm : c = 'm'
    · subst hm
      simp only [parseArgs, if_neg (by decide : ¬ ('m' = 'r')), if_pos rfl] at h
      exact ih _ _ _ _ htail h
    · by_cases ho : c = 'o'
      · subst ho
        simp only [parseArgs, if_neg (by decide : ¬ ('o' = 'r')),
          if_neg (by decide : ¬ ('o' = 'm')), if_pos rfl] at h
        exact ih _ _ _ _ htail h
      · by_cases hh : c = 'h'
        · subst hh
          simp [parseArgs, Prod.mk.injEq] at h
          exact ⟨[], [], by simpa using h.symm⟩
        · simp [parseArgs, hr, hm, ho, hh, Prod.mk.injEq] at h
          refine ⟨[Out.str ("opt: " ++ String.mk [c] ++ "\n"), Out.str "invalid argument\n"],
            [], ?_⟩
          simpa using h.symm

lemma promptLoop_skip (pre : List Char) :
    (∀ x ∈ pre, x ∉ selChars) → ∀ l : List Char,
      promptLoop (pre ++ l) = ((promptLoop l).1, invalidOuts pre ++ (promptLoop l).2) := by
  induction pre with
  | nil => intro _ l; simp [invalidOuts]
  | cons x pre ih =>
    intro hpre l
    have hx : x ∉ selChars := hpre x (List.mem_cons_self _ _)
    have htail : ∀ y ∈ pre, y ∉ selChars := fun y hy => hpre y (List.mem_cons_of_mem _ hy)
    have h18 : ¬ (x = '1' ∨ x = '2' ∨ x = '3' ∨ x = '4' ∨ x = '5' ∨ x = '6' ∨
        x = '7' ∨ x = '8') := by
      intro hh
      exact hx (by simp only [selChars, List.mem_cons]; tauto)
    have hq : ¬ x = 'q' := by
      intro hh
      exact hx (by simp [selChars, hh])
    by_cases hnl : x = '\n'
    · subst hnl
      have : promptLoop ('\n' :: (pre ++ l)) = promptLoop (pre ++ l) := by
        simp [promptLoop]
      rw [List.cons_append, this, ih htail l]
      simp [invalidOuts]
    · have hstep : promptLoop (x :: (pre ++ l)) =
          ((promptLoop (pre ++ l)).1, Out.str "invalid input\n" :: (promptLoop (pre ++ l)).2) := by
        simp [promptLoop, h18, hq, hnl]
      rw [List.cons_append, hstep, ih htail l]
      simp [invalidOuts, hnl]

/-- C2: one invocation of the registered callback `__print_data` prints
exactly three numbers, in the order pitch, roll, yaw, each the stored
radian value multiplied by `RAD_TO_DEG`, and nothing else besides the
carriage return, spaces and the trailing '|'. -/
theorem C2_print_data (d : rc_mpu_data_t) :
    (print_data d).filterMap numOf =
      [d.dmp_TaitBryan TB_PITCH_X * RAD_TO_DEG,
       d.dmp_TaitBryan TB_ROLL_Y * RAD_TO_DEG,
       d.dmp_TaitBryan TB_YAW_Z * RAD_TO_DEG] ∧
    ∀ o ∈ print_data d, (∃ q, o = Out.num q) ∨
      ∀ ch ∈ strCharsOf o, ch = '\r' ∨ ch = ' ' ∨ ch = '|' := by
  refine ⟨rfl, ?_⟩
  intro o ho
  simp only [print_data, List.mem_cons, List.not_mem_nil, or_false] at ho
  rcases ho with h | h | h | h | h | h | h | h <;> subst h
  · right; decide
  · right; decide
  · exact Or.inl ⟨_, rfl⟩
  · right; decide
  · exact Or.inl ⟨_, rfl⟩
  · right; decide
  · exact Or.inl ⟨_, rfl⟩
  · right; decide

/-- C8: `__orientation_prompt` returns the orientation selected by the
first character among '1'..'8' in the input (with the mapping of the
`switch`), exits with status 0 when 'q' comes first, silently skips
newlines, prints "invalid input" for every other character while reading
on, and returns `ORIENTATION_Z_UP` at end of input. -/
theorem C8_orientation_prompt (pre rest : List Char) (c : Char) :
    ((∀ x ∈ pre, x ∉ selChars) → c ∈ selChars → c ≠ 'q' →
      promptLoop (pre ++ c :: rest) =
        (PromptResult.sel (orientOf c) rest, invalidOuts pre)) ∧
    ((∀ x ∈ pre, x ∉ selChars) →
      promptLoop (pre ++ 'q' :: rest) =
        (PromptResult.exited, invalidOuts pre ++ [Out.str "Quitting\n"])) ∧
    ((∀ x ∈ pre, x ∉ selChars) →
      promptLoop pre =
        (PromptResult.sel rc_mpu_orientation_t.ORIENTATION_Z_UP [], invalidOuts pre)) ∧
    (orientOf '1' = rc_mpu_orientation_t.ORIENTATION_Z_UP ∧
     orientOf '2' = rc_mpu_orientation_t.ORIENTATION_Z_DOWN ∧
     orientOf '3' = rc_mpu_orientation_t.ORIENTATION_X_UP ∧
     orientOf '4' = rc_mpu_orientation_t.ORIENTATION_X_DOWN ∧
     orientOf '5' = rc_mpu_orientation_t.ORIENTATION_Y_UP ∧
     orientOf '6' = rc_mpu_orientation_t.ORIENTATION_Y_DOWN ∧
     orientOf '7' = rc_mpu_orientation_t.ORIENTATION_X_FORWARD ∧
     orientOf '8' = rc_mpu_orientation_t.ORIENTATION_X_BACK) := by
  refine ⟨?_, ?_, ?_, by decide⟩
  · intro hpre hc hq
    rw [promptLoop_skip pre hpre (c :: rest)]
    have hhead : promptLoop (c :: rest) = (PromptResult.sel (orientOf c) rest, []) := by
      simp only [selChars, List.mem_cons, List.not_mem_nil, or_false] at hc
      rcases hc with h | h | h | h | h | h | h | h | h <;> first
        | (exact absurd h hq)
        | (subst h; simp [promptLoop])
    rw [hhead]
    simp
  · intro hpre
    rw [promptLoop_skip pre hpre ('q' :: rest)]
    rfl
  · intro hpre
    have := promptLoop_skip pre hpre []
    simpa [promptLoop] using this

/-- C8 witness: on stdin "x\n3z" the prompt skips the newline, reports one
invalid input for 'x' and returns `ORIENTATION_X_UP` with 'z' unread; on
"q" it exits; on "x" alone it returns `ORIENTATION_Z_UP` at end of input. -/
theorem C8_orientation_prompt_witness :
    promptLoop (['x', '\n'] ++ '3' :: ['z']) =
      (PromptResult.sel (orientOf '3') ['z'], invalidOuts ['x', '\n']) ∧
    promptLoop (([] : List Char) ++ 'q' :: []) =
      (PromptResult.exited, invalidOuts [] ++ [Out.str "Quitting\n"]) ∧
    promptLoop ['x'] =
      (PromptResult.sel rc_mpu_orientation_t.ORIENTATION_Z_UP [], invalidOuts ['x']) :=
  ⟨(C8_orientation_prompt ['x', '\n'] ['z'] '3').1 (by decide) (by decide) (by decide),
   (C8_orientation_prompt [] [] 'q').2.1 (by decide),
   (C8_orientation_prompt ['x'] [] 'x').2.2.1 (by decide)⟩

lemma loop_inv (s : LoopState) (h : LoopReachable s) :
    (s.phase ≠ Phase.looping → s.running = false) ∧
    (s.retcode = some 0 → s.phase = Phase.finished) := by
  induction h with
  | init => exact ⟨fun h => absurd rfl h, by simp [loopInit]⟩
  | step hr hs ih =>
    cases hs with
    | sleep hph hrun => exact ih
    | sigint =>
      refine ⟨fun _ => rfl, fun hrc => ?_⟩
      exact ih.2 hrc
    | exitLoop hph hrun =>
      refine ⟨fun _ => hrun, fun hrc => ?_⟩
      have := ih.2 hrc
      rw [hph] at this
      exact absurd this (by decide)
    | returnZero hph =>
      refine ⟨fun _ => ?_, fun _ => rfl⟩
      exact ih.1 (by rw [hph]; decide)

/-- C3: after a successful initialization the sleep loop is exited only
when `running` is 0, `running` is cleared only by the SIGINT handler, and
once the loop exits the program powers the IMU off and returns 0; it never
powers off or returns 0 while `running` is still set. -/
theorem C3_sleep_loop (s s' : LoopState) (l : LoopLabel) :
    (LoopReachable s → s.phase ≠ Phase.looping → s.running = false) ∧
    (LoopReachable s → s.retcode = some 0 →
      s.phase = Phase.finished ∧ s.running = false) ∧
    (LoopStep s l s' → s.running = true → s'.running = false → l = LoopLabel.sigint) ∧
    (LoopStep s l s' → s.phase = Phase.looping → s'.phase ≠ Phase.looping →
      l = LoopLabel.exitLoop ∧ s.running = false ∧ s'.phase = Phase.poweredOff) ∧
    (LoopStep s l s' → s'.phase = Phase.finished → s.phase ≠ Phase.finished →
      s.phase = Phase.poweredOff ∧ l = LoopLabel.returnZero ∧ s'.retcode = some 0) := by
  refine ⟨?_, ?_, ?_, ?_, ?_⟩
  · intro hr hph
    exact (loop_inv s hr).1 hph
  · intro hr hrc
    have hfin := (loop_inv s hr).2 hrc
    exact ⟨hfin, (loop_inv s hr).1 (by rw [hfin]; decide)⟩
  · intro hs hrun hrun'
    cases hs with
    | sleep hph h => rw [hrun] at hrun'; exact absurd hrun' (by decide)
    | sigint => rfl
    | exitLoop hph h => rw [h] at hrun; exact absurd hrun (by decide)
    | returnZero hph => rw [hrun] at hrun'; exact absurd hrun' (by decide)
  · intro hs hph hph'
    cases hs with
    | sleep h hrun => exact absurd hph hph'
    | sigint => exact absurd hph hph'
    | exitLoop h hrun => exact ⟨rfl, hrun, rfl⟩
    | returnZero h => rw [h] at hph; exact absurd hph (by decide)
  · intro hs hph' hph
    cases hs with
    | sleep h hrun => exact absurd hph' hph
    | sigint => exact absurd hph' hph
    | exitLoop h hrun => simp at hph'
    | returnZero h => exact ⟨h, rfl, rfl⟩

/-- C3 witness: the state with the flag cleared and the IMU powered off is
reachable (SIGINT, then loop exit), and by the theorem its `running` flag
is 0. -/
theorem C3_sleep_loop_witness :
    LoopReachable ⟨false, Phase.poweredOff, none⟩ ∧
    (⟨false, Phase.poweredOff, none⟩ : LoopState).running = false := by
  have h1 : LoopStep loopInit LoopLabel.sigint ⟨false, Phase.looping, none⟩ :=
    LoopStep.sigint loopInit
  have h2 : LoopStep ⟨false, Phase.looping, none⟩ LoopLabel.exitLoop
      ⟨false, Phase.poweredOff, none⟩ :=
    LoopStep.exitLoop ⟨false, Phase.looping, none⟩ rfl rfl
  have hreach : LoopReachable ⟨false, Phase.poweredOff, none⟩ :=
    LoopReachable.step (LoopReachable.step LoopReachable.init h1) h2
  exact ⟨hreach,
    (C3_sleep_loop ⟨false, Phase.poweredOff, none⟩ loopInit LoopLabel.sleepTick).1
      hreach (by decide)⟩

lemma withOrient_fields (p : ParseOk) (stdin : List Char) (conf1 : rc_mpu_config_t)
    (os2 : List Out) (hw : withOrient p stdin = (some conf1, os2)) :
    conf1.dmp_sample_rate = p.conf.dmp_sample_rate ∧
    conf1.enable_magnetometer = p.conf.enable_magnetometer ∧
    conf1.i2c_bus = p.conf.i2c_bus ∧
    conf1.gpio_interrupt_pin_chip = p.conf.gpio_interrupt_pin_chip ∧
    conf1.gpio_interrupt_pin = p.conf.gpio_interrupt_pin ∧
    restFields conf1 = restFields p.conf ∧
    conf1.orient = (if p.orientation_menu then promptSel stdin else p.conf.orient) := by
  by_cases hom : p.orientation_menu
  · rw [withOrient, if_pos hom] at hw
    rcases hps : promptLoop stdin with ⟨r, pos⟩
    rw [hps] at hw
    cases r with
    | exited => simp at hw
    | sel o rest =>
      simp only [Prod.mk.injEq, Option.some.injEq] at hw
      rw [← hw.1]
      refine ⟨rfl, rfl, rfl, rfl, rfl, rfl, ?_⟩
      rw [if_pos hom]
      simp [promptSel, hps]
  · rw [withOrient, if_neg hom] at hw
    simp only [Prod.mk.injEq, Option.some.injEq] at hw
    rw [← hw.1, if_neg hom]
    exact ⟨rfl, rfl, rfl, rfl, rfl, rfl, rfl⟩

lemma mainRun_shape (dflt : rc_mpu_config_t) (argv : List String) (stdin : List Char)
    (init : rc_mpu_config_t → Int) :
    (∃ os, parseArgs (confBase dflt) false false
        (getoptScan ((argv.drop 1).map String.toList)) = (none, os) ∧
      mainRun dflt argv stdin init = (MainResult.ret (-1), os.map Event.out)) ∨
    (∃ p, parseArgs (confBase dflt) false false
        (getoptScan ((argv.drop 1).map String.toList)) = (some p, []) ∧
      p.show_something = false ∧
      mainRun dflt argv stdin init = (MainResult.ret (-1),
        (usageOuts ++ [Out.str "please enable an option to print some data\n"]).map
          Event.out)) ∨
    (∃ p os2, parseArgs (confBase dflt) false false
        (getoptScan ((argv.drop 1).map String.toList)) = (some p, []) ∧
      p.show_something = true ∧ withOrient p stdin = (none, os2) ∧
      mainRun dflt argv stdin init = (MainResult.exitZero, os2.map Event.out)) ∨
    (∃ p os2 conf1, parseArgs (confBase dflt) false false
        (getoptScan ((argv.drop 1).map String.toList)) = (some p, []) ∧
      p.show_something = true ∧ withOrient p stdin = (some conf1, os2) ∧
      init conf1 ≠ 0 ∧
      mainRun dflt argv stdin init = (MainResult.ret (-1),
        os2.map Event.out ++ [Event.sigRegistered, Event.initCall conf1,
          Event.out (Out.str "rc_mpu_initialize_failed\n")])) ∨
    (∃ p os2 conf1, parseArgs (confBase dflt) false false
        (getoptScan ((argv.drop 1).map String.toList)) = (some p, []) ∧
      p.show_something = true ∧ withOrient p stdin = (some conf1, os2) ∧
      init conf1 = 0 ∧
      mainRun dflt argv stdin init = (MainResult.loopEntered,
        os2.map Event.out ++ [Event.sigRegistered, Event.initCall conf1] ++
          headerOuts.map Event.out ++ [Event.setCallback, Event.loopStart])) := by
  rcases hp : parseArgs (confBase dflt) false false
      (getoptScan ((argv.drop 1).map String.toList)) with ⟨op, os⟩
  cases op with
  | none =>
    left
    refine ⟨os, rfl, ?_⟩
    simp only [mainRun, hp]
  | some p =>
    have hos : os = [] := (parseArgs_spec _ _ _ _ _ _ hp).1
    subst hos
    by_cases hsh : p.show_something = false
    · right; left
      refine ⟨p, rfl, hsh, ?_⟩
      simp only [mainRun, hp]
      simp [afterParse, hsh]
    · have hsh' : p.show_something = true := by
        revert hsh; cases p.show_something <;> simp
      rcases hw : withOrient p stdin with ⟨oc, os2⟩
      cases oc with
      | none =>
        right; right; left
        refine ⟨p, os2, rfl, hsh', hw, ?_⟩
        simp only [mainRun, hp]
        simp [afterParse, hsh, hw]
      | some conf1 =>
        by_cases hi : init conf1 = 0
        · right; right; right; right
          refine ⟨p, os2, conf1, rfl, hsh', hw, hi, ?_⟩
          simp only [mainRun, hp]
          simp [afterParse, hsh, hw, hi]
        · right; right; right; left
          refine ⟨p, os2, conf1, rfl, hsh', hw, hi, ?_⟩
          simp only [mainRun, hp]
          simp [afterParse, hsh, hw, hi]

lemma initCall_not_mem_map_out (os : List Out) (c : rc_mpu_config_t) :
    Event.initCall c ∉ os.map Event.out := by
  intro hc
  rcases List.mem_map.mp hc with ⟨o, _, heq⟩
  cases heq

lemma initCall_mem_trace (dflt : rc_mpu_config_t) (argv : List String) (stdin : List Char)
    (init : rc_mpu_config_t → Int) (conf : rc_mpu_config_t)
    (h : Event.initCall conf ∈ (mainRun dflt argv stdin init).2) :
    ∃ p os2, parseArgs (confBase dflt) false false
        (getoptScan ((argv.drop 1).map String.toList)) = (some p, []) ∧
      p.show_something = true ∧ withOrient p stdin = (some conf, os2) := by
  rcases mainRun_shape dflt argv stdin init with
    ⟨os, hp, hm⟩ | ⟨p, hp, hsh, hm⟩ | ⟨p, os2, hp, hsh, hw, hm⟩ |
    ⟨p, os2, conf1, hp, hsh, hw, hi, hm⟩ | ⟨p, os2, conf1, hp, hsh, hw, hi, hm⟩
  · rw [hm] at h
    exact absurd h (initCall_not_mem_map_out _ _)
  · rw [hm] at h
    exact absurd h (initCall_not_mem_map_out _ _)
  · rw [hm] at h
    exact absurd h (initCall_not_mem_map_out _ _)
  · rw [hm] at h
    simp at h
    subst h
    exact ⟨p, os2, hp, hsh, hw⟩
  · rw [hm] at h
    simp at h
    subst h
    exact ⟨p, os2, hp, hsh, hw⟩

/-- C1: every configuration passed to `rc_mpu_initialize_dmp` is the
default configuration with `i2c_bus = 2`, `gpio_interrupt_pin_chip = 3`,
`gpio_interrupt_pin = 21`, with `dmp_sample_rate` set by the parsed `-r`
flag (an `-r` flag necessarily occurred), `enable_magnetometer` set to 1
exactly when `-m` was parsed, `orient` set to the orientation prompt's
selection exactly when `-o` was parsed, and every other field left at its
default value. -/
theorem C1_init_config (dflt : rc_mpu_config_t) (argv : List String) (stdin : List Char)
    (init : rc_mpu_config_t → Int) (conf : rc_mpu_config_t)
    (h : Event.initCall conf ∈ (mainRun dflt argv stdin init).2) :
    conf.i2c_bus = 2 ∧ conf.gpio_interrupt_pin_chip = 3 ∧ conf.gpio_interrupt_pin = 21 ∧
    conf.dmp_sample_rate =
      parsedRate (getoptScan ((argv.drop 1).map String.toList)) dflt.dmp_sample_rate ∧
    ((getoptScan ((argv.drop 1).map String.toList)).any fun e => e.1 = 'r') = true ∧
    conf.enable_magnetometer =
      (if (getoptScan ((argv.drop 1).map String.toList)).any (fun e => e.1 = 'm') then 1
       else dflt.enable_magnetometer) ∧
    conf.orient =
      (if (getoptScan ((argv.drop 1).map String.toList)).any (fun e => e.1 = 'o') then
        promptSel stdin
       else dflt.orient) ∧
    restFields conf = restFields dflt := by
  rcases initCall_mem_trace dflt argv stdin init conf h with ⟨p, os2, hp, hsh, hw⟩
  obtain ⟨-, hshow, hom, hrate, hmag, horient, hbus, hchip, hpin, hrest⟩ :=
    parseArgs_spec _ _ _ _ _ _ hp
  obtain ⟨wrate, wmag, wbus, wchip, wpin, wrest, worient⟩ :=
    withOrient_fields p stdin conf os2 hw
  have hanyr : ((getoptScan ((argv.drop 1).map String.toList)).any
      fun e => e.1 = 'r') = true := by
    rw [hsh] at hshow
    simpa using hshow.symm
  refine ⟨?_, ?_, ?_, ?_, hanyr, ?_, ?_, ?_⟩
  · rw [wbus, hbus]; rfl
  · rw [wchip, hchip]; rfl
  · rw [wpin, hpin]; rfl
  · rw [wrate, hrate]; rfl
  · rw [wmag, hmag]; rfl
  · rw [worient]
    have homen : p.orientation_menu = ((getoptScan ((argv.drop 1).map String.toList)).any
        fun e => e.1 = 'o') := by
      simpa using hom
    rw [homen, horient]
    rcases Bool.eq_false_or_eq_true ((getoptScan ((argv.drop 1).map String.toList)).any
        fun e => e.1 = 'o') with hb | hb
    · rw [hb]; rfl
    · rw [hb]; rfl
  · rw [wrest, hrest]; rfl

/-- C1 witness: the run `-r 50 -m x -o` with stdin "3" calls
`rc_mpu_initialize_dmp` on `witnessConf`, and the theorem's conclusions
hold for it. -/
theorem C1_init_config_witness :
    Event.initCall witnessConf ∈
      (mainRun sampleConf ["stabilizer", "-r", "50", "-m", "x", "-o"] ['3']
        (fun _ => 0)).2 ∧
    witnessConf.i2c_bus = 2 ∧ witnessConf.gpio_interrupt_pin_chip = 3 ∧
    witnessConf.gpio_interrupt_pin = 21 ∧ witnessConf.dmp_sample_rate = 50 ∧
    witnessConf.enable_magnetometer = 1 ∧
    witnessConf.orient = rc_mpu_orientation_t.ORIENTATION_X_UP ∧
    restFields witnessConf = restFields sampleConf := by
  have hmem : Event.initCall witnessConf ∈
      (mainRun sampleConf ["stabilizer", "-r", "50", "-m", "x", "-o"] ['3']
        (fun _ => 0)).2 := by decide
  have hc := C1_init_config sampleConf ["stabilizer", "-r", "50", "-m", "x", "-o"] ['3']
    (fun _ => 0) witnessConf hmem
  exact ⟨hmem, hc.1, hc.2.1, hc.2.2.1, by decide, by decide, by decide, hc.2.2.2.2.2.2.2⟩

/-- C4 counterexample: with no arguments at all (and an initializer that
always returns 0), `main` returns -1 without any `rc_mpu_initialize_dmp`
failure — the usage path, not the initialization check, produced the
failure code. -/
theorem C4_counterexample :
    ¬ onlyInitFailureReturns sampleConf ["stabilizer"] [] (fun _ => 0) := by
  intro hcl
  rcases hcl (by decide) with ⟨c, -, hne⟩
  exact hne rfl

/-- C4 amended: `main` returns -1 only before any initialization attempt
(during option parsing and validation) or because `rc_mpu_initialize_dmp`
returned nonzero; once `rc_mpu_initialize_dmp` is called and returns 0,
`main` proceeds to the sleep loop (returning 0 from it), and -1 is the
only failure code. -/
theorem C4_error_handling (dflt : rc_mpu_config_t) (argv : List String)
    (stdin : List Char) (init : rc_mpu_config_t → Int) :
    ((mainRun dflt argv stdin init).1 = MainResult.ret (-1) →
      noInit (mainRun dflt argv stdin init).2 = true ∨
        anyInitFail init (mainRun dflt argv stdin init).2 = true) ∧
    (∀ c, Event.initCall c ∈ (mainRun dflt argv stdin init).2 → init c = 0 →
      (mainRun dflt argv stdin init).1 = MainResult.loopEntered) ∧
    (∀ r, (mainRun dflt argv stdin init).1 = MainResult.ret r → r = -1) := by
  rcases mainRun_shape dflt argv stdin init with
    ⟨os, hp, hm⟩ | ⟨p, hp, hsh, hm⟩ | ⟨p, os2, hp, hsh, hw, hm⟩ |
    ⟨p, os2, conf1, hp, hsh, hw, hi, hm⟩ | ⟨p, os2, conf1, hp, hsh, hw, hi, hm⟩
  · refine ⟨fun _ => Or.inl ?_, fun c hmem hz => ?_, fun r hr => ?_⟩
    · rw [hm]; exact noInit_map_out os
    · rw [hm] at hmem; exact absurd hmem (initCall_not_mem_map_out _ _)
    · rw [hm] at hr; simp at hr; omega
  · refine ⟨fun _ => Or.inl ?_, fun c hmem hz => ?_, fun r hr => ?_⟩
    · rw [hm]; exact noInit_map_out _
    · rw [hm] at hmem; exact absurd hmem (initCall_not_mem_map_out _ _)
    · rw [hm] at hr; simp at hr; omega
  · refine ⟨fun h1 => ?_, fun c hmem hz => ?_, fun r hr => ?_⟩
    · rw [hm] at h1; simp at h1
    · rw [hm] at hmem; exact absurd hmem (initCall_not_mem_map_out _ _)
    · rw [hm] at hr; simp at hr
  · refine ⟨fun _ => Or.inr ?_, fun c hmem hz => ?_, fun r hr => ?_⟩
    · rw [hm]
      apply List.any_eq_true.mpr
      refine ⟨Event.initCall conf1, by simp, ?_⟩
      simpa using hi
    · rcases initCall_mem_trace _ _ _ _ _ hmem with ⟨p', os2', hp', hsh', hw'⟩
      rw [hp] at hp'
      have hpp : p = p' := by simpa using hp'
      subst hpp
      rw [hw] at hw'
      have hw2 : conf1 = c ∧ os2 = os2' := by simpa using hw'
      rcases hw2 with ⟨hcc, -⟩
      subst hcc
      exact absurd hz hi
    · rw [hm] at hr; simp at hr; omega
  · refine ⟨fun h1 => ?_, fun c hmem hz => ?_, fun r hr => ?_⟩
    · rw [hm] at h1; simp at h1
    · rw [hm]
    · rw [hm] at hr; simp at hr

/-- C4 witness: the no-argument run returns -1 before any initialization;
the `-r 50 -m x -o` run whose initializer returns 0 reaches the sleep
loop. -/
theorem C4_error_handling_witness :
    (noInit (mainRun sampleConf ["stabilizer"] [] (fun _ => 0)).2 = true ∨
      anyInitFail (fun _ => 0)
        (mainRun sampleConf ["stabilizer"] [] (fun _ => 0)).2 = true) ∧
    (mainRun sampleConf ["stabilizer", "-r", "50", "-m", "x", "-o"] ['3']
      (fun _ => 0)).1 = MainResult.loopEntered := by
  constructor
  · exact (C4_error_handling sampleConf ["stabilizer"] [] (fun _ => 0)).1 (by decide)
  · exact (C4_error_handling sampleConf ["stabilizer", "-r", "50", "-m", "x", "-o"] ['3']
      (fun _ => 0)).2.1 witnessConf (by decide) rfl

/-- C5: in every run that reaches the sleep loop, the trace after the
parse-stage prints is exactly: signal-handler registration, the
`rc_mpu_initialize_dmp` call (which returned 0), the header prints, the
`rc_mpu_set_dmp_callback` registration, and only then loop entry — so the
callback is registered after initialization succeeded and before the loop
begins. -/
theorem C5_ordering (dflt : rc_mpu_config_t) (argv : List String) (stdin : List Char)
    (init : rc_mpu_config_t → Int)
    (h : Event.loopStart ∈ (mainRun dflt argv stdin init).2) :
    ∃ (os : List Out) (conf : rc_mpu_config_t), (mainRun dflt argv stdin init).2 =
        os.map Event.out ++ [Event.sigRegistered, Event.initCall conf] ++
          headerOuts.map Event.out ++ [Event.setCallback, Event.loopStart] ∧
      init conf = 0 := by
  rcases mainRun_shape dflt argv stdin init with
    ⟨os, hp, hm⟩ | ⟨p, hp, hsh, hm⟩ | ⟨p, os2, hp, hsh, hw, hm⟩ |
    ⟨p, os2, conf1, hp, hsh, hw, hi, hm⟩ | ⟨p, os2, conf1, hp, hsh, hw, hi, hm⟩
  · rw [hm] at h; simp at h
  · rw [hm] at h; simp at h
  · rw [hm] at h; simp at h
  · rw [hm] at h; simp at h
  · exact ⟨os2, conf1, by rw [hm], hi⟩

/-- C5 witness: the run `-r 100` with an initializer returning 0 reaches
the loop, and the theorem yields its trace decomposition. -/
theorem C5_ordering_witness :
    ∃ (os : List Out) (conf : rc_mpu_config_t),
      (mainRun sampleConf ["stabilizer", "-r", "100"] [] (fun _ => 0)).2 =
        os.map Event.out ++ [Event.sigRegistered, Event.initCall conf] ++
          headerOuts.map Event.out ++ [Event.setCallback, Event.loopStart] ∧
      (fun _ : rc_mpu_config_t => (0 : Int)) conf = 0 :=
  C5_ordering sampleConf ["stabilizer", "-r", "100"] [] (fun _ => 0) (by decide)

lemma getoptScan_cons_done (t cs : List Char) (evs : List (Char × Option (List Char)))
    (rest : List (List Char)) (hwt : wordOpt t = some cs)
    (hcs : charScan cs = (evs, none)) :
    getoptScan (t :: rest) = evs ++ getoptScan rest := by
  rw [getoptScan.eq_2, hwt]
  simp [hcs]

lemma getoptScan_cons_needArg (t cs : List Char) (evs : List (Char × Option (List Char)))
    (copt : Char) (rest : List (List Char)) (hwt : wordOpt t = some cs)
    (hcs : charScan cs = (evs, some copt)) :
    getoptScan (t :: rest) =
      (match rest with
       | [] => evs ++ [('?', none)]
       | a :: rest2 => evs ++ [(copt, some a)] ++ getoptScan rest2) := by
  rw [getoptScan.eq_2, hwt]
  simp [hcs]

lemma getoptScan_append_aux :
    ∀ (n : Nat) (ts rest : List (List Char)), ts.length ≤ n →
      scanConsumesAll ts = true →
      getoptScan (ts ++ rest) = getoptScan ts ++ getoptScan rest := by
  intro n
  induction n with
  | zero =>
    intro ts rest hlen h
    have hts : ts = [] := List.length_eq_zero.mp (Nat.le_zero.mp hlen)
    subst hts
    rfl
  | succ n ih =>
    intro ts rest hlen h
    cases ts with
    | nil => rfl
    | cons t ts2 =>
      rw [List.cons_append]
      cases ts2 with
      | nil =>
        rw [scanConsumesAll.eq_2] at h
        rcases hwt : wordOpt t with _ | cs
        · simp [hwt] at h
        · rcases hcs : charScan cs with ⟨evs, pend⟩
          cases pend with
          | none =>
            rw [getoptScan_cons_done t cs evs (([] : List (List Char)) ++ rest) hwt hcs,
              getoptScan_cons_done t cs evs [] hwt hcs]
            simp [getoptScan]
          | some copt =>
            simp [hwt, hcs] at h
      | cons a ts3 =>
        rw [scanConsumesAll.eq_3] at h
        rcases hwt : wordOpt t with _ | cs
        · simp [hwt] at h
        · rcases hcs : charScan cs with ⟨evs, pend⟩
          cases pend with
          | none =>
            simp only [hwt, hcs] at h
            rw [getoptScan_cons_done t cs evs ((a :: ts3) ++ rest) hwt hcs,
              getoptScan_cons_done t cs evs (a :: ts3) hwt hcs]
            have hlen2 : (a :: ts3).length ≤ n := by
              simp only [List.length_cons] at hlen ⊢; omega
            rw [ih _ rest hlen2 h, List.append_assoc]
          | some copt =>
            simp only [hwt, hcs] at h
            rw [getoptScan_cons_needArg t cs evs copt ((a :: ts3) ++ rest) hwt hcs,
              getoptScan_cons_needArg t cs evs copt (a :: ts3) hwt hcs, List.cons_append]
            have hlen3 : ts3.length ≤ n := by
              simp only [List.length_cons] at hlen; omega
            show evs ++ [(copt, some a)] ++ getoptScan (ts3 ++ rest) =
              (evs ++ [(copt, some a)] ++ getoptScan ts3) ++ getoptScan rest
            rw [ih ts3 rest hlen3 h]
            simp [List.append_assoc]

lemma getoptScan_append (ts rest : List (List Char))
    (h : scanConsumesAll ts = true) :
    getoptScan (ts ++ rest) = getoptScan ts ++ getoptScan rest :=
  getoptScan_append_aux ts.length ts rest le_rfl h

/-- C6 counterexample: `-r 300` is an invocation without a valid `-r`, and
it returns -1 with the rate-range message — the usage text is never
printed. -/
theorem C6_counterexample :
    ¬ noValidR_usage sampleConf ["stabilizer", "-r", "300"] [] (fun _ => 0) := by
  intro hcl
  have h := hcl (by decide)
  exact absurd h.1 (by decide)

/-- C6 amended: an out-of-range `-r` rate makes `main` return -1 without
initializing the IMU; when every `getopt` result is an in-range `-r`, `-m`
or `-o`, parsing succeeds, `dmp_sample_rate` is the last parsed rate (no
divisor-of-200 condition is enforced), and `show_something` is set exactly
by `-r`; an invocation whose scan has no `-r` at all prints the usage text
and returns -1 before touching the IMU. -/
theorem C6_rate_validation (dflt : rc_mpu_config_t) (argv : List String)
    (stdin : List Char) (init : rc_mpu_config_t → Int) :
    (((getoptScan ((argv.drop 1).map String.toList)).any fun e =>
        e.1 = 'r' && (atoiChars (e.2.getD []) < 4 || 200 < atoiChars (e.2.getD []))) = true →
      (mainRun dflt argv stdin init).1 = MainResult.ret (-1) ∧
      noInit (mainRun dflt argv stdin init).2 = true) ∧
    ((∀ e ∈ getoptScan ((argv.drop 1).map String.toList), benignEv e = true) →
      ((parseArgs (confBase dflt) false false
          (getoptScan ((argv.drop 1).map String.toList))).1.map fun p =>
            p.conf.dmp_sample_rate) =
        some (parsedRate (getoptScan ((argv.drop 1).map String.toList))
          dflt.dmp_sample_rate) ∧
      ((parseArgs (confBase dflt) false false
          (getoptScan ((argv.drop 1).map String.toList))).1.map fun p =>
            p.show_something) =
        some ((getoptScan ((argv.drop 1).map String.toList)).any fun e => e.1 = 'r')) ∧
    (((getoptScan ((argv.drop 1).map String.toList)).any fun e => e.1 = 'r') = false →
      (mainRun dflt argv stdin init).1 = MainResult.ret (-1) ∧
      containsSeq usageEvents (mainRun dflt argv stdin init).2 = true ∧
      noInit (mainRun dflt argv stdin init).2 = true) := by
  refine ⟨?_, ?_, ?_⟩
  · intro hbad
    have hnone := parse_fail_bad_rate _ (confBase dflt) false false hbad
    rcases mainRun_shape dflt argv stdin init with
      ⟨os, hp, hm⟩ | ⟨p, hp, hsh, hm⟩ | ⟨p, os2, hp, hsh, hw, hm⟩ |
      ⟨p, os2, conf1, hp, hsh, hw, hi, hm⟩ | ⟨p, os2, conf1, hp, hsh, hw, hi, hm⟩
    · rw [hm]
      exact ⟨rfl, noInit_map_out os⟩
    · rw [hp] at hnone; simp at hnone
    · rw [hp] at hnone; simp at hnone
    · rw [hp] at hnone; simp at hnone
    · rw [hp] at hnone; simp at hnone
  · intro hben
    have hsome := parse_benign_success _ (confBase dflt) false false hben
    rcases hp : parseArgs (confBase dflt) false false
        (getoptScan ((argv.drop 1).map String.toList)) with ⟨op, os⟩
    cases op with
    | none => rw [hp] at hsome; simp at hsome
    | some p =>
      obtain ⟨-, hshow, -, hrate, -, -, -, -, -, -⟩ := parseArgs_spec _ _ _ _ _ _ hp
      constructor
      · simp only [Option.map_some]
        exact congrArg some hrate
      · simp only [Option.map_some]
        apply congrArg some
        simpa using hshow
  · intro hnor
    have hne : ∀ e ∈ getoptScan ((argv.drop 1).map String.toList), e.1 ≠ 'r' := by
      intro e he heq
      have : ((getoptScan ((argv.drop 1).map String.toList)).any
          fun e => e.1 = 'r') = true :=
        List.any_eq_true.mpr ⟨e, he, by simp [heq]⟩
      rw [hnor] at this
      cases this
    rcases mainRun_shape dflt argv stdin init with
      ⟨os, hp, hm⟩ | ⟨p, hp, hsh, hm⟩ | ⟨p, os2, hp, hsh, hw, hm⟩ |
      ⟨p, os2, conf1, hp, hsh, hw, hi, hm⟩ | ⟨p, os2, conf1, hp, hsh, hw, hi, hm⟩
    · rcases parse_fail_usage _ _ _ _ _ hne hp with ⟨pre, suf, hos⟩
      rw [hm]
      refine ⟨rfl, ?_, noInit_map_out os⟩
      rw [hos]
      simp only [List.map_append]
      exact containsSeq_sandwich _ _ _
    · rw [hm]
      refine ⟨rfl, ?_, noInit_map_out _⟩
      have := containsSeq_sandwich (usageOuts.map Event.out) []
        ([Out.str "please enable an option to print some data\n"].map Event.out)
      simpa [usageEvents] using this
    · have hshow := (parseArgs_spec _ _ _ _ _ _ hp).2.1
      rw [hsh, hnor] at hshow
      cases hshow
    · have hshow := (parseArgs_spec _ _ _ _ _ _ hp).2.1
      rw [hsh, hnor] at hshow
      cases hshow
    · have hshow := (parseArgs_spec _ _ _ _ _ _ hp).2.1
      rw [hsh, hnor] at hshow
      cases hshow

/-- C6 witness: `-r 300` is rejected with -1 and no initialization;
`-r 7` (7 is in [4, 200] but no divisor of 200) is accepted with
`dmp_sample_rate = 7`; `-m x -o` without `-r` prints the usage text and
returns -1. -/
theorem C6_rate_validation_witness :
    (mainRun sampleConf ["stabilizer", "-r", "300"] [] (fun _ => 0)).1 =
      MainResult.ret (-1) ∧
    noInit (mainRun sampleConf ["stabilizer", "-r", "300"] [] (fun _ => 0)).2 = true ∧
    ¬ ((7 : Int) ∣ 200) ∧
    ((parseArgs (confBase sampleConf) false false
        (getoptScan ((["stabilizer", "-r", "7"].drop 1).map String.toList))).1.map
          fun p => p.conf.dmp_sample_rate) = some 7 ∧
    (mainRun sampleConf ["stabilizer", "-m", "x", "-o"] [] (fun _ => 0)).1 =
      MainResult.ret (-1) ∧
    containsSeq usageEvents
      (mainRun sampleConf ["stabilizer", "-m", "x", "-o"] [] (fun _ => 0)).2 = true := by
  refine ⟨?_, ?_, by decide, ?_, ?_, ?_⟩
  · exact ((C6_rate_validation sampleConf ["stabilizer", "-r", "300"] []
      (fun _ => 0)).1 (by decide)).1
  · exact ((C6_rate_validation sampleConf ["stabilizer", "-r", "300"] []
      (fun _ => 0)).1 (by decide)).2
  · have h := ((C6_rate_validation sampleConf ["stabilizer", "-r", "7"] []
      (fun _ => 0)).2.1 (by decide)).1
    exact h.trans (by decide)
  · exact ((C6_rate_validation sampleConf ["stabilizer", "-m", "x", "-o"] []
      (fun _ => 0)).2.2 (by decide)).1
  · exact ((C6_rate_validation sampleConf ["stabilizer", "-m", "x", "-o"] []
      (fun _ => 0)).2.2 (by decide)).2.1

/-- C7 counterexample: in `-r 300 -m` the final token is `-m`, but `main`
returns -1 at the rate-range check before parsing ever reaches `-m`: the
rate message, not the usage text, is printed. -/
theorem C7_counterexample :
    ¬ mFinalUsage sampleConf ["stabilizer", "-r", "300", "-m"] [] (fun _ => 0) := by
  intro hcl
  have h := hcl (by decide)
  exact absurd h.1 (by decide)

/-- C7 amended: because the option string is "r:m:ho", `-m` requires an
argument.  When option parsing actually reaches a final `-m` token — the
preceding words scan without stopping (`scanConsumesAll`) and produce only
benign results, so `-m` is not consumed as an earlier option's argument —
`getopt` yields the error case '?' for the missing argument, and `main`
prints the usage text and returns -1 without initializing the IMU. -/
theorem C7_m_missing_argument (dflt : rc_mpu_config_t) (stdin : List Char)
    (init : rc_mpu_config_t → Int) (name : String) (front : List String)
    (h1 : scanConsumesAll (front.map String.toList) = true)
    (h2 : ∀ e ∈ getoptScan (front.map String.toList), benignEv e = true) :
    getoptScan ((front ++ ["-m"]).map String.toList) =
      getoptScan (front.map String.toList) ++ [('?', none)] ∧
    (mainRun dflt (name :: (front ++ ["-m"])) stdin init).1 = MainResult.ret (-1) ∧
    containsSeq usageEvents
      (mainRun dflt (name :: (front ++ ["-m"])) stdin init).2 = true ∧
    noInit (mainRun dflt (name :: (front ++ ["-m"])) stdin init).2 = true := by
  have hscan : getoptScan ((front ++ ["-m"]).map String.toList) =
      getoptScan (front.map String.toList) ++ [('?', none)] := by
    rw [List.map_append, getoptScan_append _ _ h1]
    rfl
  have hparse : parseArgs (confBase dflt) false false
      (getoptScan ((front ++ ["-m"]).map String.toList)) = (none, errOuts) := by
    rw [hscan]
    exact parse_benign_err _ _ _ _ h2
  have hmain : mainRun dflt (name :: (front ++ ["-m"])) stdin init =
      (MainResult.ret (-1), errOuts.map Event.out) := by
    simp only [mainRun, List.drop_succ_cons, List.drop_zero, hparse]
  refine ⟨hscan, ?_, ?_, ?_⟩
  · rw [hmain]
  · rw [hmain]
    have := containsSeq_sandwich (usageOuts.map Event.out)
      ([Out.str "opt: ?\n", Out.str "invalid argument\n"].map Event.out) []
    simpa [errOuts, usageEvents] using this
  · rw [hmain]
    exact noInit_map_out _

/-- C7 witness: after the benign prefix `-r 100`, a final `-m` yields the
'?' error result, the usage text, a -1 return and no initialization. -/
theorem C7_m_missing_argument_witness :
    getoptScan ((["-r", "100"] ++ ["-m"]).map String.toList) =
      getoptScan (["-r", "100"].map String.toList) ++ [('?', none)] ∧
    (mainRun sampleConf ("stabilizer" :: (["-r", "100"] ++ ["-m"])) []
      (fun _ => 0)).1 = MainResult.ret (-1) ∧
    containsSeq usageEvents
      (mainRun sampleConf ("stabilizer" :: (["-r", "100"] ++ ["-m"])) []
        (fun _ => 0)).2 = true ∧
    noInit (mainRun sampleConf ("stabilizer" :: (["-r", "100"] ++ ["-m"])) []
      (fun _ => 0)).2 = true :=
  C7_m_missing_argument sampleConf [] (fun _ => 0) "stabilizer" ["-r", "100"]
    (by decide) (by decide)

end Stabilizer
